import Mathlib

/-!
Todo list state management (`src/src/App.jsx`).

A shallow embedding of the state held by the `App` component and of its
handlers `handleAddTodo`, `handleToggleTodo`, `handleDeleteTodo`, together
with the derived counters `completedCount` and `totalCount`.

* A JavaScript array is a `List`; `[...todos, newTodo]` is `todos ++ [newTodo]`,
  `todos.map f` is `List.map f`, `todos.filter p` is `List.filter p`.
* The two `useState` cells are the two fields of `AppState`; a handler reads
  the state it closes over and the values it passes to `setTodos` and
  `setInputValue` form the next state.
* `Date.now()` is an input of `handleAddTodo` (the clock reading, an integer
  number of milliseconds, hence a `Nat`).
* `alert(msg)` is recorded in the `alert` field of the handler's `Outcome`.
  Every handler returns `undefined`, so the outcome carries nothing else.
* Text is a `String` (a sequence of Unicode scalar values).
-/

namespace TodoApp

/-! ## Data model -/

/-- One entry of the `todos` array: `{ id, text, completed }`. -/
structure Todo where
  id : Nat
  text : String
  completed : Bool
  deriving DecidableEq, Repr

/-- The two state cells of `App`: `todos` and `inputValue`. -/
structure AppState where
  todos : List Todo
  inputValue : String
  deriving DecidableEq, Repr

/-- What a handler does: the next state and the message passed to `alert`, if any. -/
structure Outcome where
  state : AppState
  alert : Option String
  deriving DecidableEq, Repr

/-- The argument of the first `useState` call (App.jsx lines 17-24). -/
def initialTodos : List Todo :=
  [ { id := 1, text := "Learn React Fundamentals", completed := true },
    { id := 2, text := "Master Component Architecture", completed := true },
    { id := 3, text := "Build a Todo App with Reusable Components", completed := true },
    { id := 4, text := "Implement Props Passing", completed := false },
    { id := 5, text := "Style Components with CSS", completed := false },
    { id := 6, text := "Deploy Application", completed := false } ]

/-- The state of `App` on first render: the seed list and `useState('')`. -/
def initialState : AppState :=
  { todos := initialTodos, inputValue := "" }

/-! ## `String.prototype.trim` -/

/-- The code points removed by `trim`: ECMAScript `WhiteSpace` (TAB, VT, FF, the
byte order mark and the space separators) and `LineTerminator` (LF, CR, LS, PS). -/
def isTrimmable (c : Char) : Bool :=
  let n := c.toNat
  n == 0x09 || n == 0x0A || n == 0x0B || n == 0x0C || n == 0x0D || n == 0x20 ||
  n == 0xA0 || n == 0x1680 || (0x2000 ≤ n && n ≤ 0x200A) || n == 0x2028 ||
  n == 0x2029 || n == 0x202F || n == 0x205F || n == 0x3000 || n == 0xFEFF

/-- Strip the trimmable characters from both ends of a character list. -/
def trimChars (cs : List Char) : List Char :=
  ((cs.dropWhile isTrimmable).reverse.dropWhile isTrimmable).reverse

/-- The method `inputValue.trim()`. -/
def trim (s : String) : String :=
  ⟨trimChars s.data⟩

/-- A handler reported a failure when it raised an alert. -/
def Outcome.failed (o : Outcome) : Bool :=
  o.alert.isSome

/-! ## Handlers -/

/-- The object literal `newTodo` built at App.jsx lines 34-38. -/
def newTodo (now : Nat) (inputValue : String) : Todo :=
  { id := now, text := inputValue, completed := false }

/-- The handler `handleAddTodo` (App.jsx lines 28-42); `now` is the value of `Date.now()`. -/
def handleAddTodo (now : Nat) (s : AppState) : Outcome :=
  if trim s.inputValue = "" then
    { state := s, alert := some "Please enter a todo item" }
  else
    { state := { todos := s.todos ++ [newTodo now s.inputValue], inputValue := "" },
      alert := none }

/-- The callback of `todos.map` in `handleToggleTodo` (App.jsx line 48). -/
def toggleOne (id : Nat) (todo : Todo) : Todo :=
  if todo.id = id then { todo with completed := !todo.completed } else todo

/-- The handler `handleToggleTodo` (App.jsx lines 45-51). -/
def handleToggleTodo (id : Nat) (s : AppState) : Outcome :=
  { state := { s with todos := s.todos.map (toggleOne id) }, alert := none }

/-- The handler `handleDeleteTodo` (App.jsx lines 54-56). -/
def handleDeleteTodo (id : Nat) (s : AppState) : Outcome :=
  { state := { s with todos := s.todos.filter (fun todo => todo.id != id) }, alert := none }

/-- The `onChange` callback of the text input: `setInputValue(e.target.value)`. -/
def setInputValue (value : String) (s : AppState) : AppState :=
  { s with inputValue := value }

/-! ## Derived counters -/

/-- The constant `completedCount` (App.jsx line 66). -/
def completedCount (s : AppState) : Nat :=
  (s.todos.filter (fun todo => todo.completed)).length

/-- The constant `totalCount` (App.jsx line 67). -/
def totalCount (s : AppState) : Nat :=
  s.todos.length

/-- The number shown after "Remaining:" (App.jsx line 104): `totalCount - completedCount`,
a subtraction of JavaScript numbers, which may be negative, hence an `Int`. -/
def remainingCount (s : AppState) : Int :=
  (totalCount s : Int) - (completedCount s : Int)

/-! ## Sequences of user actions -/

/-- What the presentation layer can do to the state: edit the input field, press Add
(the clock then reads `now`), tick a checkbox, press a delete button. -/
inductive Action where
  | type (value : String)
  | add (now : Nat)
  | toggle (id : Nat)
  | delete (id : Nat)
  deriving DecidableEq, Repr

/-- The state after one action. -/
def step (s : AppState) : Action → AppState
  | .type value => setInputValue value s
  | .add now => (handleAddTodo now s).state
  | .toggle id => (handleToggleTodo id s).state
  | .delete id => (handleDeleteTodo id s).state

/-- The state after a sequence of actions, performed left to right. -/
def run (s : AppState) (actions : List Action) : AppState :=
  actions.foldl step s

/-- The ids of the items, in list order. -/
def ids (s : AppState) : List Nat :=
  s.todos.map Todo.id

/-- The three numbers of the stats bar: total, completed, remaining. -/
def stats (s : AppState) : Nat × Nat × Int :=
  (totalCount s, completedCount s, remainingCount s)

/-! ## Adding -/

/-- Trimming a character list leaves nothing exactly when all of it is trimmable. -/
theorem trimChars_eq_nil_iff (cs : List Char) :
    trimChars cs = [] ↔ ∀ c ∈ cs, isTrimmable c = true := by
  unfold trimChars
  rw [List.reverse_eq_nil_iff, List.dropWhile_eq_nil_iff]
  constructor
  · intro h
    have h1 : (cs.dropWhile isTrimmable).dropWhile isTrimmable = [] :=
      List.dropWhile_eq_nil_iff.mpr fun x hx => h x (List.mem_reverse.mpr hx)
    rw [List.dropWhile_idempotent] at h1
    exact List.dropWhile_eq_nil_iff.mp h1
  · intro h c hc
    exact h c ((List.dropWhile_sublist _).subset (List.mem_reverse.mp hc))

/-- The trimmed text is empty exactly when every character of the text is trimmable. -/
theorem trim_eq_empty_iff (s : String) :
    trim s = "" ↔ ∀ c ∈ s.data, isTrimmable c = true := by
  rw [← trimChars_eq_nil_iff]
  constructor
  · intro h
    have := congrArg String.data h
    simpa [trim] using this
  · intro h
    simp [trim, h]

/-- C1: whenever the trimmed `inputValue` is empty, `handleAddTodo` raises the
"Please enter a todo item" alert (the empty-input validation failure), appends no item
and leaves the state, `todos` included, exactly as it was. -/
theorem handleAddTodo_empty (now : Nat) (s : AppState) (h : trim s.inputValue = "") :
    (handleAddTodo now s).failed = true ∧
    (handleAddTodo now s).alert = some "Please enter a todo item" ∧
    (handleAddTodo now s).state.todos = s.todos ∧
    (handleAddTodo now s).state = s := by
  simp [handleAddTodo, h, Outcome.failed]

/-- The inputs `""` and `"   "` on the seed list, at any clock reading, are rejected. -/
theorem handleAddTodo_empty_witness :
    (trim (setInputValue "   " initialState).inputValue = "" ∧
      (handleAddTodo 1700000000000 (setInputValue "   " initialState)).failed = true ∧
      (handleAddTodo 1700000000000 (setInputValue "   " initialState)).alert
        = some "Please enter a todo item" ∧
      (handleAddTodo 1700000000000 (setInputValue "   " initialState)).state.todos
        = (setInputValue "   " initialState).todos ∧
      (handleAddTodo 1700000000000 (setInputValue "   " initialState)).state
        = setInputValue "   " initialState) ∧
    trim "" = "" ∧ (handleAddTodo 0 initialState).state.todos = initialTodos :=
  ⟨⟨by decide, handleAddTodo_empty 1700000000000 (setInputValue "   " initialState) (by decide)⟩,
    by decide, by decide⟩

/-- C2: whenever the trimmed `inputValue` is not empty, `handleAddTodo` raises no alert,
the new `todos` is the old list followed by one item whose `completed` is `false` and
whose `text` is the `inputValue` as supplied, the length grows by one, every old
position holds the item it held before, and `inputValue` becomes the empty string. -/
theorem handleAddTodo_appends (now : Nat) (s : AppState) (h : trim s.inputValue ≠ "") :
    (handleAddTodo now s).failed = false ∧
    (∃ item : Todo, item.completed = false ∧ item.text = s.inputValue ∧
      (handleAddTodo now s).state.todos = s.todos ++ [item]) ∧
    (handleAddTodo now s).state.todos.length = s.todos.length + 1 ∧
    (∀ i, i < s.todos.length → (handleAddTodo now s).state.todos[i]? = s.todos[i]?) ∧
    ((handleAddTodo now s).state.todos.getLast?.map Todo.completed = some false) ∧
    ((handleAddTodo now s).state.todos.getLast?.map Todo.text = some s.inputValue) ∧
    (handleAddTodo now s).state.inputValue = "" := by
  have e : handleAddTodo now s =
      { state := { todos := s.todos ++ [newTodo now s.inputValue], inputValue := "" },
        alert := none } := by
    simp [handleAddTodo, h]
  rw [e]
  refine ⟨rfl, ⟨newTodo now s.inputValue, rfl, rfl, rfl⟩, by simp, ?_, by simp [newTodo],
    by simp [newTodo], rfl⟩
  intro i hi
  exact List.getElem?_append_left hi

/-- Adding "Write tests" to the seed list. -/
theorem handleAddTodo_appends_witness :
    trim (setInputValue "Write tests" initialState).inputValue ≠ "" ∧
    (handleAddTodo 1700000000000 (setInputValue "Write tests" initialState)).state.todos.length
      = (setInputValue "Write tests" initialState).todos.length + 1 ∧
    (handleAddTodo 1700000000000 (setInputValue "Write tests" initialState)).state.inputValue
      = "" :=
  have h := handleAddTodo_appends 1700000000000 (setInputValue "Write tests" initialState)
    (by decide)
  ⟨by decide, h.2.2.1, h.2.2.2.2.2.2⟩

/-! ## Toggling -/

/-- Toggling never changes an id. -/
theorem toggleOne_id (id : Nat) (t : Todo) : (toggleOne id t).id = t.id := by
  unfold toggleOne
  split <;> rfl

/-- Toggling never changes a text. -/
theorem toggleOne_text (id : Nat) (t : Todo) : (toggleOne id t).text = t.text := by
  unfold toggleOne
  split <;> rfl

/-- An item with another id is returned as it is. -/
theorem toggleOne_of_ne (id : Nat) (t : Todo) (h : t.id ≠ id) : toggleOne id t = t := by
  simp [toggleOne, h]

/-- An item with the id has its flag negated and nothing else changed. -/
theorem toggleOne_of_eq (id : Nat) (t : Todo) (h : t.id = id) :
    toggleOne id t = { id := t.id, text := t.text, completed := !t.completed } := by
  simp [toggleOne, h]

/-- Toggling an item twice gives the item back. -/
theorem toggleOne_toggleOne (id : Nat) (t : Todo) : toggleOne id (toggleOne id t) = t := by
  by_cases h : t.id = id
  · cases t
    simp_all [toggleOne]
  · simp [toggleOne, h]

/-- The list of ids is the same before and after a toggle. -/
theorem ids_handleToggleTodo (id : Nat) (s : AppState) :
    ids (handleToggleTodo id s).state = ids s := by
  simp only [ids, handleToggleTodo, List.map_map]
  apply List.map_congr_left
  intro t _
  exact toggleOne_id id t

/-- C4: when the ids are pairwise distinct and `id` occurs, `handleToggleTodo id` keeps
the length, and there is one position whose item has that id and comes back with the same
id and text and the negated `completed` flag, while every other position holds exactly
the item it held before; `inputValue` is untouched and no alert is raised. -/
theorem handleToggleTodo_frame (id : Nat) (s : AppState)
    (hnd : (ids s).Nodup) (hmem : ∃ t ∈ s.todos, t.id = id) :
    (handleToggleTodo id s).state.todos.length = s.todos.length ∧
    (∃ (i : Nat) (t : Todo), s.todos[i]? = some t ∧ t.id = id ∧
      (handleToggleTodo id s).state.todos[i]?
        = some { id := t.id, text := t.text, completed := !t.completed } ∧
      ∀ j : Nat, j ≠ i → (handleToggleTodo id s).state.todos[j]? = s.todos[j]?) ∧
    (∀ (j : Nat) (t u : Todo), s.todos[j]? = some t → (handleToggleTodo id s).state.todos[j]? = some u →
      u.id = t.id ∧ u.text = t.text) ∧
    (handleToggleTodo id s).state.inputValue = s.inputValue ∧
    (handleToggleTodo id s).alert = none := by
  obtain ⟨t, ht, hid⟩ := hmem
  obtain ⟨i, hi⟩ := List.getElem?_of_mem ht
  have hget : ∀ j : Nat, (handleToggleTodo id s).state.todos[j]?
      = (s.todos[j]?).map (toggleOne id) := by
    intro j
    simp [handleToggleTodo]
  refine ⟨by simp [handleToggleTodo], ⟨i, t, hi, hid, ?_, ?_⟩, ?_, rfl, rfl⟩
  · rw [hget, hi, Option.map_some', toggleOne_of_eq id t hid]
  · intro j hj
    rw [hget]
    cases hu : s.todos[j]? with
    | none => rfl
    | some u =>
      have hne : u.id ≠ id := by
        intro heq
        apply hj
        have h1 : (ids s)[j]? = some id := by simp [ids, hu, heq]
        have h2 : (ids s)[i]? = some id := by simp [ids, hi, hid]
        have hj_lt : j < (ids s).length := by
          by_contra hc
          rw [List.getElem?_eq_none (Nat.le_of_not_lt hc)] at h1
          cases h1
        exact (List.getElem?_inj hj_lt hnd (h1.trans h2.symm))
      rw [Option.map_some', toggleOne_of_ne id u hne]
  · intro j t u hjt hju
    rw [hget, hjt, Option.map_some'] at hju
    cases hju
    exact ⟨toggleOne_id id t, toggleOne_text id t⟩

/-- Ticking the fourth seed item. -/
theorem handleToggleTodo_frame_witness :
    (ids initialState).Nodup ∧ (∃ t ∈ initialState.todos, t.id = 4) ∧
    (handleToggleTodo 4 initialState).state.todos.length = initialState.todos.length ∧
    (handleToggleTodo 4 initialState).state.inputValue = initialState.inputValue :=
  have h := handleToggleTodo_frame 4 initialState (by decide) (by decide)
  ⟨by decide, by decide, h.1, h.2.2.2.1⟩

/-- C9: toggling the same id twice in succession gives back the state it started from,
whatever the list and whatever the id. -/
theorem handleToggleTodo_involutive (id : Nat) (s : AppState) :
    (handleToggleTodo id (handleToggleTodo id s).state).state = s := by
  cases s with
  | mk todos inputValue =>
    simp only [handleToggleTodo, List.map_map]
    congr 1
    conv_rhs => rw [← List.map_id todos]
    apply List.map_congr_left
    intro t _
    exact toggleOne_toggleOne id t

/-! ## Deleting -/

/-- Membership in the list after a delete. -/
theorem mem_handleDeleteTodo (id : Nat) (s : AppState) (t : Todo) :
    t ∈ (handleDeleteTodo id s).state.todos ↔ t ∈ s.todos ∧ t.id ≠ id := by
  simp [handleDeleteTodo]

/-- Deleting from a list with pairwise distinct ids leaves the ids pairwise distinct. -/
theorem nodup_ids_handleDeleteTodo (id : Nat) (s : AppState) (hnd : (ids s).Nodup) :
    (ids (handleDeleteTodo id s).state).Nodup := by
  unfold ids at *
  exact List.Nodup.sublist ((List.filter_sublist s.todos).map Todo.id) hnd

/-- Removing the one item with the id from a list with pairwise distinct ids. -/
theorem filter_ne_of_nodup (id : Nat) (l1 l2 : List Todo) (x : Todo) (hx : x.id = id)
    (hnd : ((l1 ++ x :: l2).map Todo.id).Nodup) :
    (l1 ++ x :: l2).filter (fun todo => todo.id != id) = l1 ++ l2 := by
  have hno : ∀ t ∈ l1 ++ l2, t.id ≠ id := by
    intro t ht heq
    rw [List.map_append, List.map_cons] at hnd
    rcases List.mem_append.mp ht with h | h
    · have hdis := (List.nodup_append.mp hnd).2.2
      exact hdis (List.mem_map_of_mem Todo.id h) (by simp [hx, heq])
    · have hcons := (List.nodup_append.mp hnd).2.1
      rw [List.nodup_cons] at hcons
      exact hcons.1 (by rw [hx, ← heq]; exact List.mem_map_of_mem Todo.id h)
  rw [List.filter_append, List.filter_cons]
  have h1 : l1.filter (fun todo => todo.id != id) = l1 :=
    List.filter_eq_self.mpr fun t ht => by
      simpa using hno t (List.mem_append_left _ ht)
  have h2 : l2.filter (fun todo => todo.id != id) = l2 :=
    List.filter_eq_self.mpr fun t ht => by
      simpa using hno t (List.mem_append_right _ ht)
  simp [h1, h2, hx]

/-- C5: after `handleDeleteTodo id` no item has that id; the new list is the old one with
items taken out and nothing reordered (a sublist), and every item with another id occurs
as many times as before, unmodified; when the ids are pairwise distinct and the id
occurs, the old list splits around one item with that id, the new list is what is left,
and the length drops by exactly one. -/
theorem handleDeleteTodo_removes (id : Nat) (s : AppState) :
    (∀ t ∈ (handleDeleteTodo id s).state.todos, t.id ≠ id) ∧
    (handleDeleteTodo id s).state.todos.Sublist s.todos ∧
    (∀ t : Todo, t.id ≠ id →
      (handleDeleteTodo id s).state.todos.count t = s.todos.count t) ∧
    (∀ t ∈ s.todos, t.id ≠ id → t ∈ (handleDeleteTodo id s).state.todos) ∧
    ((ids s).Nodup → (∃ t ∈ s.todos, t.id = id) →
      ∃ (l1 : List Todo) (x : Todo) (l2 : List Todo),
        s.todos = l1 ++ x :: l2 ∧ x.id = id ∧
        (handleDeleteTodo id s).state.todos = l1 ++ l2 ∧
        (handleDeleteTodo id s).state.todos.length + 1 = s.todos.length) := by
  refine ⟨?_, ?_, ?_, ?_, ?_⟩
  · intro t ht
    exact ((mem_handleDeleteTodo id s t).mp ht).2
  · exact List.filter_sublist s.todos
  · intro t ht
    simp only [handleDeleteTodo]
    exact List.count_filter (by simpa using ht)
  · intro t ht hne
    exact (mem_handleDeleteTodo id s t).mpr ⟨ht, hne⟩
  · intro hnd ⟨x, hx, hid⟩
    obtain ⟨l1, l2, hsplit⟩ := List.append_of_mem hx
    have hf : (handleDeleteTodo id s).state.todos = l1 ++ l2 := by
      simp only [handleDeleteTodo]
      rw [hsplit]
      apply filter_ne_of_nodup id l1 l2 x hid
      rw [← hsplit]
      exact hnd
    refine ⟨l1, x, l2, hsplit, hid, hf, ?_⟩
    rw [hf, hsplit]
    simp
    omega

/-- Deleting the third seed item. -/
theorem handleDeleteTodo_removes_witness :
    (ids initialState).Nodup ∧ (∃ t ∈ initialState.todos, t.id = 3) ∧
    ∃ (l1 : List Todo) (x : Todo) (l2 : List Todo),
      initialState.todos = l1 ++ x :: l2 ∧ x.id = 3 ∧
      (handleDeleteTodo 3 initialState).state.todos = l1 ++ l2 ∧
      (handleDeleteTodo 3 initialState).state.todos.length + 1 = initialState.todos.length :=
  ⟨by decide, by decide,
    (handleDeleteTodo_removes 3 initialState).2.2.2.2 (by decide) (by decide)⟩

/-! ## An id that does not occur -/

/-- Mapping the toggle callback over a list without the id changes nothing. -/
theorem map_toggleOne_of_absent (id : Nat) (l : List Todo) (h : ∀ t ∈ l, t.id ≠ id) :
    l.map (toggleOne id) = l := by
  conv_rhs => rw [← List.map_id l]
  apply List.map_congr_left
  intro t hmem
  exact toggleOne_of_ne id t (h t hmem)

/-- Filtering the id out of a list without the id changes nothing. -/
theorem filter_of_absent (id : Nat) (l : List Todo) (h : ∀ t ∈ l, t.id ≠ id) :
    l.filter (fun todo => todo.id != id) = l :=
  List.filter_eq_self.mpr fun t hmem => by simpa using h t hmem

/-- C6: when no item has the id, `handleToggleTodo id` and `handleDeleteTodo id` both
give back the list they were given, position by position, and the whole state with it. -/
theorem absent_id_unchanged (id : Nat) (s : AppState) (h : ∀ t ∈ s.todos, t.id ≠ id) :
    (handleToggleTodo id s).state.todos = s.todos ∧
    (handleDeleteTodo id s).state.todos = s.todos ∧
    (∀ i : Nat, (handleToggleTodo id s).state.todos[i]? = s.todos[i]? ∧
      (handleDeleteTodo id s).state.todos[i]? = s.todos[i]?) ∧
    (handleToggleTodo id s).state = s ∧ (handleDeleteTodo id s).state = s := by
  simp only [handleToggleTodo, handleDeleteTodo, map_toggleOne_of_absent id s.todos h,
    filter_of_absent id s.todos h]
  simp

/-- The id 99 on the seed list. -/
theorem absent_id_unchanged_witness :
    (∀ t ∈ initialState.todos, t.id ≠ 99) ∧
    (handleToggleTodo 99 initialState).state.todos = initialState.todos ∧
    (handleDeleteTodo 99 initialState).state.todos = initialState.todos :=
  have h := absent_id_unchanged 99 initialState (by decide)
  ⟨by decide, h.1, h.2.1⟩

/-- C7, as stated, fails: no seed item has id 99, yet neither handler reports a failure
there, and what either handler reports is the same as for id 1, which does occur. -/
theorem not_found_not_reported :
    (∀ t ∈ initialState.todos, t.id ≠ 99) ∧ (∃ t ∈ initialState.todos, t.id = 1) ∧
    (handleToggleTodo 99 initialState).failed = false ∧
    (handleDeleteTodo 99 initialState).failed = false ∧
    (handleToggleTodo 99 initialState).alert = (handleToggleTodo 1 initialState).alert ∧
    (handleDeleteTodo 99 initialState).alert = (handleDeleteTodo 1 initialState).alert := by
  decide

/-- C7, amended: `handleToggleTodo` and `handleDeleteTodo` never report a failure,
whether or not the id occurs; the list they produce differs from the one they were given
exactly when some item has the id. -/
theorem toggle_delete_silent (id : Nat) (s : AppState) :
    (handleToggleTodo id s).failed = false ∧ (handleToggleTodo id s).alert = none ∧
    (handleDeleteTodo id s).failed = false ∧ (handleDeleteTodo id s).alert = none ∧
    ((handleToggleTodo id s).state.todos ≠ s.todos ↔ ∃ t ∈ s.todos, t.id = id) ∧
    ((handleDeleteTodo id s).state.todos ≠ s.todos ↔ ∃ t ∈ s.todos, t.id = id) := by
  refine ⟨rfl, rfl, rfl, rfl, ?_, ?_⟩
  · constructor
    · intro hne
      by_contra hno
      push_neg at hno
      exact hne (by simp [handleToggleTodo, map_toggleOne_of_absent id s.todos hno])
    · intro ⟨t, ht, hid⟩ heq
      obtain ⟨i, hi⟩ := List.getElem?_of_mem ht
      have h1 : (handleToggleTodo id s).state.todos[i]? = some (toggleOne id t) := by
        simp [handleToggleTodo, hi]
      rw [heq, hi, toggleOne_of_eq id t hid] at h1
      have h2 := congrArg Todo.completed (Option.some.inj h1)
      simp at h2
  · constructor
    · intro hne
      by_contra hno
      push_neg at hno
      exact hne (by simp [handleDeleteTodo, filter_of_absent id s.todos hno])
    · intro ⟨t, ht, hid⟩ heq
      have hmem : t ∈ (handleDeleteTodo id s).state.todos := by rw [heq]; exact ht
      exact ((mem_handleDeleteTodo id s t).mp hmem).2 hid

/-! ## Stats -/

/-- C8: `totalCount` is the length of the list, `completedCount` is the number of items
whose flag is set, the remaining number is their difference, `completedCount` never
exceeds `totalCount`, so the remaining number is never negative and is the number of
items whose flag is not set. -/
theorem stats_correct (s : AppState) :
    totalCount s = s.todos.length ∧
    completedCount s = s.todos.countP (fun t => t.completed) ∧
    remainingCount s = (totalCount s : Int) - (completedCount s : Int) ∧
    completedCount s ≤ totalCount s ∧
    0 ≤ remainingCount s ∧
    remainingCount s = ((s.todos.countP (fun t => !t.completed) : Nat) : Int) ∧
    stats s = (s.todos.length, s.todos.countP (fun t => t.completed),
      (s.todos.length : Int) - (s.todos.countP (fun t => t.completed) : Int)) := by
  have hc : completedCount s = s.todos.countP (fun t => t.completed) := by
    simp [completedCount, List.countP_eq_length_filter]
  have hle : completedCount s ≤ totalCount s := by
    rw [hc]
    exact List.countP_le_length _
  have hsplit := List.length_eq_countP_add_countP (fun t : Todo => t.completed) s.todos
  have hneg : s.todos.countP (fun t => decide ¬(t.completed = true))
      = s.todos.countP (fun t => !t.completed) := by
    congr 1
    funext t
    cases t.completed <;> rfl
  rw [hneg] at hsplit
  refine ⟨rfl, hc, rfl, hle, ?_, ?_, ?_⟩
  · unfold remainingCount
    omega
  · unfold remainingCount totalCount
    rw [hc]
    omega
  · simp [stats, remainingCount, totalCount, hc]

/-! ## Uniqueness of ids -/

/-- An add whose clock reading is not yet an id keeps the ids pairwise distinct. -/
theorem nodup_ids_handleAddTodo_of_fresh (now : Nat) (s : AppState)
    (hnd : (ids s).Nodup) (hfresh : now ∉ ids s) :
    (ids (handleAddTodo now s).state).Nodup := by
  unfold handleAddTodo
  split
  · exact hnd
  · simp only [ids, List.map_append, List.map_cons, List.map_nil, newTodo]
    refine List.Nodup.append hnd (List.nodup_singleton now) ?_
    intro a ha hb
    rw [List.mem_singleton] at hb
    exact hfresh (hb ▸ ha)

/-- Every action keeps the ids pairwise distinct, provided an add reads a clock value
that is not already an id. -/
theorem nodup_ids_step (s : AppState) (a : Action) (hnd : (ids s).Nodup)
    (hfresh : ∀ now, a = Action.add now → now ∉ ids s) :
    (ids (step s a)).Nodup := by
  cases a with
  | type value => exact hnd
  | add now => exact nodup_ids_handleAddTodo_of_fresh now s hnd (hfresh now rfl)
  | toggle id =>
    show (ids (handleToggleTodo id s).state).Nodup
    rw [ids_handleToggleTodo]
    exact hnd
  | delete id => exact nodup_ids_handleDeleteTodo id s hnd

/-- C3 fails on the code: starting from the seed list, two adds that read the same clock
value 1700000000000 leave two different items carrying that one id, so the ids of a
reachable state are not pairwise distinct; a toggle of that id then flips both items
and a delete of it removes both. -/
theorem same_instant_adds_share_id :
    ¬ (ids (run initialState
        [Action.type "a", Action.add 1700000000000,
         Action.type "b", Action.add 1700000000000])).Nodup ∧
    (run initialState
        [Action.type "a", Action.add 1700000000000,
         Action.type "b", Action.add 1700000000000]).todos
      = initialTodos ++
          [ { id := 1700000000000, text := "a", completed := false },
            { id := 1700000000000, text := "b", completed := false } ] ∧
    (run initialState
        [Action.type "a", Action.add 1700000000000,
         Action.type "b", Action.add 1700000000000,
         Action.toggle 1700000000000]).todos
      = initialTodos ++
          [ { id := 1700000000000, text := "a", completed := true },
            { id := 1700000000000, text := "b", completed := true } ] ∧
    (run initialState
        [Action.type "a", Action.add 1700000000000,
         Action.type "b", Action.add 1700000000000,
         Action.delete 1700000000000]).todos
      = initialTodos := by
  decide

/-! ## The end-to-end scenario -/

/-- C10: the seed list has six items with ids 1 to 6, the first three completed and the
last three pending, and stats 6/3/3; for every clock reading at the add that is none of
the seed ids (every reading of a clock later than 6 ms after the epoch), adding
"Write tests" gives seven items, the new one last and not completed, with stats 7/3/4;
toggling the assigned id gives 7/4/3; deleting it gives back 6/3/3 and the six seed items
in their order. -/
theorem scenario_of_fresh_id (now : Nat) (hfresh : now ∉ ids initialState) :
    ids initialState = [1, 2, 3, 4, 5, 6] ∧
    initialState.todos.map Todo.completed = [true, true, true, false, false, false] ∧
    stats initialState = (6, 3, 3) ∧
    (run initialState [Action.type "Write tests", Action.add now]).todos
      = initialTodos ++ [{ id := now, text := "Write tests", completed := false }] ∧
    stats (run initialState [Action.type "Write tests", Action.add now]) = (7, 3, 4) ∧
    stats (run initialState [Action.type "Write tests", Action.add now, Action.toggle now])
      = (7, 4, 3) ∧
    stats (run initialState [Action.type "Write tests", Action.add now, Action.toggle now,
      Action.delete now]) = (6, 3, 3) ∧
    (run initialState [Action.type "Write tests", Action.add now, Action.toggle now,
      Action.delete now]).todos = initialTodos := by
  have hne : trim "Write tests" ≠ "" := by decide
  simp only [ids, initialState, initialTodos, List.map_cons, List.map_nil, List.mem_cons,
    List.mem_singleton, List.mem_nil_iff, not_or, or_false] at hfresh
  obtain ⟨h1, h2, h3, h4, h5, h6⟩ := hfresh
  have g1 : (1 : Nat) ≠ now := Ne.symm h1
  have g2 : (2 : Nat) ≠ now := Ne.symm h2
  have g3 : (3 : Nat) ≠ now := Ne.symm h3
  have g4 : (4 : Nat) ≠ now := Ne.symm h4
  have g5 : (5 : Nat) ≠ now := Ne.symm h5
  have g6 : (6 : Nat) ≠ now := Ne.symm h6
  refine ⟨by decide, by decide, by decide, ?_, ?_, ?_, ?_, ?_⟩ <;>
    simp [run, step, setInputValue, handleAddTodo, handleToggleTodo, handleDeleteTodo,
      toggleOne, hne, initialState, initialTodos, newTodo, stats, totalCount, completedCount,
      remainingCount, List.filter_cons, g1, g2, g3, g4, g5, g6]

/-- The scenario at the clock reading 1700000000000. -/
theorem scenario_of_fresh_id_witness :
    1700000000000 ∉ ids initialState ∧
    stats (run initialState [Action.type "Write tests", Action.add 1700000000000,
      Action.toggle 1700000000000]) = (7, 4, 3) ∧
    (run initialState [Action.type "Write tests", Action.add 1700000000000,
      Action.toggle 1700000000000, Action.delete 1700000000000]).todos = initialTodos :=
  have h := scenario_of_fresh_id 1700000000000 (by decide)
  ⟨by decide, h.2.2.2.2.2.1, h.2.2.2.2.2.2.2⟩

/-- The hypothesis on the clock reading is needed: were the clock to read 3 at the add,
the id of a seed item, the toggle of the assigned id would flip the third seed item as
well and leave 7/3/4, and the delete would remove both, leaving 5/2/3. -/
theorem scenario_colliding_id :
    stats initialState = (6, 3, 3) ∧
    stats (run initialState [Action.type "Write tests", Action.add 3]) = (7, 3, 4) ∧
    stats (run initialState [Action.type "Write tests", Action.add 3, Action.toggle 3])
      = (7, 3, 4) ∧
    stats (run initialState [Action.type "Write tests", Action.add 3, Action.toggle 3,
      Action.delete 3]) = (5, 2, 3) ∧
    (run initialState [Action.type "Write tests", Action.add 3, Action.toggle 3,
      Action.delete 3]).todos ≠ initialTodos := by
  decide

end TodoApp
